import Mathlib

/-!
Verification development for the communication-game training mechanics of
`src/game.py` (class `CommunicationRnnMultiTask` and its collaborators).

Tensors are shallowly embedded as lists of rationals together with an autograd
flag (`grad`): `detach` clears the flag, elementwise arithmetic propagates it.
Elementwise binary operations are modelled with `List.zipWith`; all claims and
witnesses below use shape-consistent operands, where this coincides with the
PyTorch semantics.  The single failure mode modelled as `Option.none` is the
dictionary lookup `aux_info["acc"]` (a Python `KeyError` when the functional
loss omits the key); no other statement in `forward` raises on its own.
-/

/-- A 1-D float tensor of shape `(B,)`: per-batch-element rational values plus
the autograd `grad` flag (`requires_grad`/graph connection). -/
structure Tensor where
  data : List ℚ
  grad : Bool
deriving DecidableEq

/-- A 2-D float tensor of shape `(B, max_len)`. -/
structure Tensor2 where
  data : List (List ℚ)
  grad : Bool
deriving DecidableEq

/-- `t.detach()`: same values, no gradient connection. -/
def Tensor.detach (t : Tensor) : Tensor := ⟨t.data, false⟩

/-- `t.detach()` for 2-D tensors. -/
def Tensor2.detach (t : Tensor2) : Tensor2 := ⟨t.data, false⟩

/-- Elementwise tensor addition. -/
def tAdd (a b : Tensor) : Tensor :=
  ⟨List.zipWith (· + ·) a.data b.data, a.grad || b.grad⟩

/-- Elementwise tensor multiplication. -/
def tMul (a b : Tensor) : Tensor :=
  ⟨List.zipWith (· * ·) a.data b.data, a.grad || b.grad⟩

/-- Elementwise tensor division. -/
def tDiv (a b : Tensor) : Tensor :=
  ⟨List.zipWith (· / ·) a.data b.data, a.grad || b.grad⟩

/-- Tensor minus scalar, elementwise. -/
def tSubS (a : Tensor) (c : ℚ) : Tensor := ⟨a.data.map (· - c), a.grad⟩

/-- Tensor plus scalar, elementwise. -/
def tAddS (a : Tensor) (c : ℚ) : Tensor := ⟨a.data.map (· + c), a.grad⟩

/-- Scalar times tensor, elementwise. -/
def tScale (c : ℚ) (a : Tensor) : Tensor := ⟨a.data.map (c * ·), a.grad⟩

/-- Elementwise negation. -/
def tNeg (a : Tensor) : Tensor := ⟨a.data.map (fun x => -x), a.grad⟩

/-- `t.mean()`: sum of the entries divided by their count. -/
def tMean (a : Tensor) : ℚ := a.data.sum / a.data.length

/-- `torch.zeros_like(t)`. -/
def tZerosLike (t : Tensor) : Tensor := ⟨List.replicate t.data.length 0, false⟩

/-- `lengths.float()`: cast an integer `(B,)` tensor to float. -/
def lengthsFloat (lengths : List ℕ) : Tensor :=
  ⟨lengths.map (fun (n : ℕ) => (n : ℚ)), false⟩

/-- Column `i` of a 2-D tensor: `t[:, i]`. -/
def Tensor2.col (t : Tensor2) (i : ℕ) : Tensor :=
  ⟨t.data.map (fun row => row.getD i 0), t.grad⟩

/-- `messages.size(1)`: the number of columns of a `(B, max_len)` int tensor. -/
def numCols (messages : List (List ℕ)) : ℕ := (messages.headD []).length

/-- A value stored in the auxiliary-information dictionary: either a 1-D or a
2-D tensor. -/
inductive AuxVal where
  | t1 (t : Tensor)
  | t2 (t : Tensor2)
deriving DecidableEq

/-- The `aux_info` dictionary: metric name to tensor, insertion-ordered. -/
def AuxInfo := List (String × AuxVal)

instance : DecidableEq AuxInfo := by
  unfold AuxInfo
  infer_instance

/-- Dictionary assignment `aux_info[k] = v`: replace the binding if the key is
present, append it otherwise. -/
def auxSet (a : AuxInfo) (k : String) (v : AuxVal) : AuxInfo :=
  match a with
  | [] => [(k, v)]
  | (k', v') :: rest => if k' = k then (k, v) :: rest else (k', v') :: auxSet rest k v

/-- Dictionary read `aux_info[k]`, `none` when the key is absent (`KeyError`). -/
def auxGet (a : AuxInfo) (k : String) : Option AuxVal :=
  match a with
  | [] => none
  | (k', v') :: rest => if k' = k then some v' else auxGet rest k

/-- Read a key expected to hold a 1-D tensor (the `"acc"` contract of the
functional loss: a `(B,)` tensor with values in `{0,1}`). -/
def auxGetT1 (a : AuxInfo) (k : String) : Option Tensor :=
  match auxGet a k with
  | some (AuxVal.t1 t) => some t
  | _ => none

/-- Modelled from the spec: `egg.core.baselines.MeanBaseline` is imported by
`src/game.py` but its source is not under `src/`.  Per the spec (section 4.2),
the estimator maintains a count and a running mean so that `predict` is the
sample mean of all values seen so far via `update`, and `predict` before any
`update` returns 0. -/
structure MeanBaseline where
  nPoints : ℕ
  meanBaseline : ℚ
deriving DecidableEq

/-- A freshly constructed estimator: no observations, estimate 0. -/
def MeanBaseline.fresh : MeanBaseline := ⟨0, 0⟩

/-- `predict`: return the current estimate; no state mutation. -/
def MeanBaseline.predict (b : MeanBaseline) : ℚ := b.meanBaseline

/-- `update(value_tensor)`: incorporate a new batch of observations, keeping
`predict` equal to the mean of all individual observations seen so far. -/
def MeanBaseline.update (b : MeanBaseline) (vs : List ℚ) : MeanBaseline :=
  let n' := b.nPoints + vs.length
  ⟨n', if n' = 0 then b.meanBaseline else (b.meanBaseline * b.nPoints + vs.sum) / n'⟩

/-- Fold a sequence of `update` calls over an estimator. -/
def applyUpdates (b : MeanBaseline) (vss : List (List ℚ)) : MeanBaseline :=
  vss.foldl MeanBaseline.update b

/-- `self.baselines = defaultdict(baseline_type)` (src/game.py line 107),
viewed extensionally: every key is mapped to an estimator, unknown keys to a
fresh one. -/
def baselinesInit : String → MeanBaseline := fun _ => MeanBaseline.fresh

/-- `self.baselines[k].update(vs)`: update the estimator stored at one key,
leaving every other key untouched. -/
def baselinesUpdate (bs : String → MeanBaseline) (k : String) (vs : List ℚ) :
    String → MeanBaseline :=
  fun k' => if k' = k then (bs k).update vs else bs k'

/-- Modelled from the spec: the row rule of the Sequence Length Resolver
(`egg.core.find_lengths`, imported by `src/game.py` but not under `src/`): the
effective length of a row is `1 +` the index of the first end-of-sequence
symbol, or `max_len` if the row contains no EOS. -/
def rowLength (eos : ℕ) (maxLen : ℕ) (row : List ℕ) : ℕ :=
  match row.findIdx? (· = eos) with
  | some i => i + 1
  | none => maxLen

/-- Modelled from the spec: `find_lengths` maps the row rule over a
`(B, max_len)` batch of symbol sequences. -/
def find_lengths (eos : ℕ) (messages : List (List ℕ)) : List ℕ :=
  messages.map (fun row => rowLength eos (numCols messages) row)

/-- The unpacked `sender_input` tuple (src/game.py lines 129-136): images of
shape `(num_images, B)`, the target-image selector, ids, ground-truth caption
sequences and their lengths. -/
structure SenderInput where
  images : List (List ℚ)
  targetLabel : List ℕ
  targetImageIds : List ℕ
  distractorImageIds : List ℕ
  captions : List (List ℕ)
  sequenceLengths : List ℕ
deriving DecidableEq

/-- `images[target_label, range(images.size(1))]` (src/game.py line 137): for
every batch column `j`, pick the image selected by `target_label[j]`. -/
def imagesTargetOf (images : List (List ℚ)) (targetLabel : List ℕ) : List ℚ :=
  (List.range (images.headD []).length).map
    (fun j => (images.getD (targetLabel.getD j 0) []).getD j 0)

/-- A record of one invocation of the Sender, with the keyword flags exactly as
written at the call sites in `src/game.py`. -/
inductive SenderCall where
  | sampled (imagesTarget : List ℚ) (useTeacherForcing : Bool) (decodeSampling : Bool)
  | teacherForced (imagesTarget : List ℚ) (captions : List (List ℕ))
      (sequenceLengths : List ℕ) (useTeacherForcing : Bool) (decodeSampling : Bool)
deriving DecidableEq

/-- The Sender collaborator: a sampling-mode entry point returning
`(messages, log_prob_s, entropy_s)` and a teacher-forcing entry point returning
per-position scores.  The two trailing `Bool` arguments are
`use_teacher_forcing` and `decode_sampling`. -/
structure Sender where
  sampled : List ℚ → Bool → Bool → List (List ℕ) × Tensor2 × Tensor2
  teacherForced : List ℚ → List (List ℕ) → List ℕ → Bool → Bool → Tensor2

/-- The Receiver collaborator:
`(messages, receiver_input, message_lengths) -> (receiver_output, log_prob_r, entropy_r)`. -/
structure Receiver where
  run : List (List ℕ) → Option Tensor → List ℕ → Tensor × Tensor × Tensor

/-- The functional loss collaborator. -/
def LossFunctional :=
  SenderInput → List (List ℕ) → Tensor2 → Option Tensor → Tensor → Tensor →
    Tensor × AuxInfo

/-- The structural loss collaborator: `(captions, scores) -> (scalar loss, _)`. -/
def LossStructural := List (List ℕ) → Tensor2 → ℚ × AuxInfo

/-- The scalar hyperparameters of `CommunicationRnnMultiTask.__init__`. -/
structure Params where
  senderEntropyCoeff : ℚ
  receiverEntropyCoeff : ℚ
  lengthCost : ℚ
  weightStructuralLoss : ℚ
deriving DecidableEq

/-- The record handed to `logging_strategy.filtered_interaction`
(src/game.py lines 227-235); the default `LoggingStrategy()` keeps every
field. -/
structure Interaction where
  senderInput : SenderInput
  labels : Tensor
  receiverInput : Option Tensor
  message : List (List ℕ)
  receiverOutput : Tensor
  messageLength : List ℕ
  aux : AuxInfo
deriving DecidableEq

/-- One `forward` call's observable outcome: the returned scalar, the
interaction record, the post-call baseline state, and the trace of Sender
invocations made during the call. -/
structure ForwardResult where
  optimizedLoss : ℚ
  interaction : Interaction
  baselines : String → MeanBaseline
  senderCalls : List SenderCall

/-- `(i < message_lengths).float()` (src/game.py line 174). -/
def notEosed (i : ℕ) (lengths : List ℕ) : Tensor :=
  ⟨lengths.map (fun L => if i < L then (1 : ℚ) else 0), false⟩

/-- The masking loop of src/game.py lines 173-176: for `i` in
`range(messages.size(1))`, accumulate `entropy_s[:, i] * not_eosed` and
`log_prob_s[:, i] * not_eosed`. -/
def effLoop (cols : ℕ) (entropy_s log_prob_s : Tensor2) (lengths : List ℕ)
    (initE initL : Tensor) : Tensor × Tensor :=
  (List.range cols).foldl
    (fun acc i =>
      (tAdd acc.1 (tMul (entropy_s.col i) (notEosed i lengths)),
       tAdd acc.2 (tMul (log_prob_s.col i) (notEosed i lengths))))
    (initE, initL)

/-- `reward = (aux_info["acc"] - 1) * 2 + 1` (src/game.py line 161). -/
def rewardOf (acc : Tensor) : Tensor := tAddS (tScale 2 (tSubS acc 1)) 1

/-- `loss = - reward` (src/game.py line 163). -/
def lossSignalOf (acc : Tensor) : Tensor := tNeg (rewardOf acc)

/-- The intermediate values of the sampled (non-teacher-forced) phase of
`CommunicationRnnMultiTask.forward` (src/game.py lines 129-158), up to and
including the `aux_info["loss_functional"]` assignment. -/
structure Stage1 where
  imagesTarget : List ℚ
  messages : List (List ℕ)
  log_prob_s : Tensor2
  entropy_s : Tensor2
  message_lengths : List ℕ
  receiver_output : Tensor
  log_prob_r : Tensor
  entropy_r : Tensor
  loss_func : Tensor
  aux1 : AuxInfo
  sampledCall : SenderCall

/-- src/game.py lines 129-158: unpack `sender_input`, invoke the Sender without
teacher forcing (the `if self.training` branch and its `else` branch issue the
identical call), resolve message lengths, invoke the Receiver and the
functional loss, and record `loss_functional` in `aux_info`. -/
def stage1 (sender : Sender) (receiver : Receiver) (lossFunctional : LossFunctional)
    (training : Bool) (senderInput : SenderInput) (labels : Tensor)
    (receiverInput : Option Tensor) : Stage1 :=
  let images_target := imagesTargetOf senderInput.images senderInput.targetLabel
  let rl :=
    if training then
      (sender.sampled images_target false true, SenderCall.sampled images_target false true)
    else
      (sender.sampled images_target false true, SenderCall.sampled images_target false true)
  let messages := rl.1.1
  let log_prob_s := rl.1.2.1
  let entropy_s := rl.1.2.2
  let message_lengths := find_lengths 0 messages
  let recv := receiver.run messages receiverInput message_lengths
  let lf := lossFunctional senderInput messages log_prob_s receiverInput recv.1 labels
  { imagesTarget := images_target
    messages := messages
    log_prob_s := log_prob_s
    entropy_s := entropy_s
    message_lengths := message_lengths
    receiver_output := recv.1
    log_prob_r := recv.2.1
    entropy_r := recv.2.2
    loss_func := lf.1
    aux1 := auxSet lf.2 "loss_functional" (AuxVal.t1 ⟨[tMean lf.1], false⟩)
    sampledCall := rl.2 }

/-- The dictionary read `aux_info["acc"]` (src/game.py line 161): the single
point at which `forward` itself can raise. -/
def accLookup (sender : Sender) (receiver : Receiver) (lossFunctional : LossFunctional)
    (training : Bool) (senderInput : SenderInput) (labels : Tensor)
    (receiverInput : Option Tensor) : Option Tensor :=
  auxGetT1 (stage1 sender receiver lossFunctional training senderInput labels receiverInput).aux1 "acc"

/-- src/game.py lines 161-237, given the value of `aux_info["acc"]`: reward and
loss signal, the masking loop, entropy regularization, the two baseline-centered
policy-gradient terms, the optional structural pass (gated on
`weight_structural_loss > 0`), the training-only baseline updates, the final
`aux_info` assignments, and the interaction record. -/
def forwardCore (p : Params) (sender : Sender) (receiver : Receiver)
    (lossFunctional : LossFunctional) (lossStructural : LossStructural)
    (training : Bool) (baselines : String → MeanBaseline)
    (senderInput : SenderInput) (labels : Tensor) (receiverInput : Option Tensor)
    (acc : Tensor) : ForwardResult :=
  let st := stage1 sender receiver lossFunctional training senderInput labels receiverInput
  let loss := lossSignalOf acc
  let eff := effLoop (numCols st.messages) st.entropy_s st.log_prob_s st.message_lengths
      (tZerosLike st.entropy_r) (tZerosLike st.log_prob_r)
  let effective_entropy_s := tDiv eff.1 (lengthsFloat st.message_lengths)
  let effective_log_prob_s := eff.2
  let weighted_entropy :=
    tMean effective_entropy_s * p.senderEntropyCoeff
      + tMean st.entropy_r * p.receiverEntropyCoeff
  let log_prob := tAdd effective_log_prob_s st.log_prob_r
  let length_loss := tScale p.lengthCost (lengthsFloat st.message_lengths)
  let policy_length_loss :=
    tMean (tMul (tSubS length_loss ((baselines "length").predict)) effective_log_prob_s)
  let policy_loss :=
    tMean (tMul (tSubS loss.detach ((baselines "loss").predict)) log_prob)
  let optimized_loss := policy_length_loss + policy_loss - weighted_entropy
  let structStep :=
    if 0 < p.weightStructuralLoss then
      let scores_struct := sender.teacherForced st.imagesTarget senderInput.captions
        senderInput.sequenceLengths true false
      let loss_struct := (lossStructural senderInput.captions scores_struct).1
      (optimized_loss + p.weightStructuralLoss * loss_struct,
       auxSet st.aux1 "loss_structural" (AuxVal.t1 ⟨[loss_struct], false⟩),
       [SenderCall.teacherForced st.imagesTarget senderInput.captions
          senderInput.sequenceLengths true false])
    else (optimized_loss, st.aux1, [])
  let baselines' :=
    if training then
      baselinesUpdate (baselinesUpdate baselines "loss" loss.data) "length" length_loss.data
    else baselines
  let aux2 :=
    auxSet (auxSet (auxSet structStep.2.1
      "sender_entropy" (AuxVal.t2 st.entropy_s.detach))
      "receiver_entropy" (AuxVal.t1 st.entropy_r.detach))
      "length" (AuxVal.t1 (lengthsFloat st.message_lengths))
  { optimizedLoss := structStep.1
    interaction :=
      { senderInput := senderInput
        labels := labels
        receiverInput := receiverInput
        message := st.messages
        receiverOutput := st.receiver_output.detach
        messageLength := st.message_lengths
        aux := aux2 }
    baselines := baselines'
    senderCalls := st.sampledCall :: structStep.2.2 }

/-- `CommunicationRnnMultiTask.forward` (src/game.py lines 119-237): the
sampled phase, then the `aux_info["acc"]` read (raising when absent), then the
remainder of the step. -/
def forward (p : Params) (sender : Sender) (receiver : Receiver)
    (lossFunctional : LossFunctional) (lossStructural : LossStructural)
    (training : Bool) (baselines : String → MeanBaseline)
    (senderInput : SenderInput) (labels : Tensor) (receiverInput : Option Tensor) :
    Option ForwardResult :=
  match accLookup sender receiver lossFunctional training senderInput labels receiverInput with
  | none => none
  | some acc =>
      some (forwardCore p sender receiver lossFunctional lossStructural training baselines
        senderInput labels receiverInput acc)

/-! ### Helper lemmas -/

lemma stage1_training_const (sender : Sender) (receiver : Receiver)
    (lossFunctional : LossFunctional) (training : Bool) (senderInput : SenderInput)
    (labels : Tensor) (receiverInput : Option Tensor) :
    stage1 sender receiver lossFunctional training senderInput labels receiverInput
      = stage1 sender receiver lossFunctional false senderInput labels receiverInput := by
  cases training <;> rfl

lemma accLookup_training_const (sender : Sender) (receiver : Receiver)
    (lossFunctional : LossFunctional) (training : Bool) (senderInput : SenderInput)
    (labels : Tensor) (receiverInput : Option Tensor) :
    accLookup sender receiver lossFunctional training senderInput labels receiverInput
      = accLookup sender receiver lossFunctional false senderInput labels receiverInput := by
  cases training <;> rfl

lemma forward_eq_core (p : Params) (sender : Sender) (receiver : Receiver)
    (lossFunctional : LossFunctional) (lossStructural : LossStructural)
    (training : Bool) (baselines : String → MeanBaseline)
    (senderInput : SenderInput) (labels : Tensor) (receiverInput : Option Tensor)
    (acc : Tensor)
    (hacc : accLookup sender receiver lossFunctional training senderInput labels receiverInput
      = some acc) :
    forward p sender receiver lossFunctional lossStructural training baselines
        senderInput labels receiverInput
      = some (forwardCore p sender receiver lossFunctional lossStructural training baselines
          senderInput labels receiverInput acc) := by
  unfold forward
  rw [hacc]

lemma getD_zipWith {f : ℚ → ℚ → ℚ} {a b : List ℚ} {k : ℕ}
    (ha : k < a.length) (hb : k < b.length) :
    (List.zipWith f a b).getD k 0 = f (a.getD k 0) (b.getD k 0) := by
  simp [List.getD_eq_getElem?_getD, List.getElem?_zipWith,
    List.getElem?_eq_getElem, ha, hb]

lemma getD_map {α β : Type} (f : α → β) (l : List α) (k : ℕ) (d : α) (d' : β)
    (h : k < l.length) : (l.map f).getD k d' = f (l.getD k d) := by
  simp [List.getD_eq_getElem?_getD, List.getElem?_map, List.getElem?_eq_getElem, h]

lemma getD_replicate_zero (B k : ℕ) : (List.replicate B (0 : ℚ)).getD k 0 = 0 := by
  rcases Nat.lt_or_ge k B with h | h
  · simp [List.getD_eq_getElem?_getD, List.getElem?_replicate, h]
  · simp [List.getD_eq_getElem?_getD, List.getElem?_replicate, Nat.not_lt.2 h]

lemma auxGet_auxSet_same (a : AuxInfo) (k : String) (v : AuxVal) :
    auxGet (auxSet a k v) k = some v := by
  induction a with
  | nil => simp [auxSet, auxGet]
  | cons kv rest ih =>
    obtain ⟨k', v'⟩ := kv
    by_cases h : k' = k
    · simp [auxSet, auxGet, h]
    · simp [auxSet, auxGet, h, ih]

lemma auxGet_auxSet_other (a : AuxInfo) (k k' : String) (v : AuxVal) (h : k' ≠ k) :
    auxGet (auxSet a k v) k' = auxGet a k' := by
  induction a with
  | nil => simp [auxSet, auxGet, Ne.symm h]
  | cons kv rest ih =>
    obtain ⟨k'', v''⟩ := kv
    by_cases hkk : k'' = k
    · simp [auxSet, auxGet, hkk, Ne.symm h]
    · simp [auxSet, auxGet, hkk, ih]

lemma effLoop_succ (n : ℕ) (es ls : Tensor2) (lengths : List ℕ) (iE iL : Tensor) :
    effLoop (n + 1) es ls lengths iE iL =
      (tAdd (effLoop n es ls lengths iE iL).1 (tMul (es.col n) (notEosed n lengths)),
       tAdd (effLoop n es ls lengths iE iL).2 (tMul (ls.col n) (notEosed n lengths))) := by
  simp [effLoop, List.range_succ]

lemma effLoop_length (cols B : ℕ) (es ls : Tensor2) (lengths : List ℕ)
    (hes : es.data.length = B) (hls : ls.data.length = B) (hlen : lengths.length = B)
    (iE iL : Tensor) (hiE : iE.data.length = B) (hiL : iL.data.length = B) :
    (effLoop cols es ls lengths iE iL).1.data.length = B
      ∧ (effLoop cols es ls lengths iE iL).2.data.length = B := by
  induction cols with
  | zero => exact ⟨hiE, hiL⟩
  | succ n ih =>
    rw [effLoop_succ]
    constructor <;>
      simp [tAdd, tMul, Tensor2.col, notEosed, List.length_zipWith, ih.1, ih.2, hes, hls, hlen]

lemma effLoop_getD (cols B b : ℕ) (es ls : Tensor2) (lengths : List ℕ)
    (hes : es.data.length = B) (hls : ls.data.length = B) (hlen : lengths.length = B)
    (hb : b < B) (iE iL : Tensor) (hiE : iE.data.length = B) (hiL : iL.data.length = B) :
    (effLoop cols es ls lengths iE iL).1.data.getD b 0
        = iE.data.getD b 0 + ∑ i ∈ Finset.range cols,
            (es.data.getD b []).getD i 0 * (if i < lengths.getD b 0 then (1 : ℚ) else 0)
      ∧ (effLoop cols es ls lengths iE iL).2.data.getD b 0
        = iL.data.getD b 0 + ∑ i ∈ Finset.range cols,
            (ls.data.getD b []).getD i 0 * (if i < lengths.getD b 0 then (1 : ℚ) else 0) := by
  induction cols with
  | zero => simp [effLoop]
  | succ n ih =>
    obtain ⟨ih1, ih2⟩ := ih
    obtain ⟨hl1, hl2⟩ := effLoop_length n B es ls lengths hes hls hlen iE iL hiE hiL
    rw [effLoop_succ]
    have hcolE : (es.col n).data.length = B := by simp [Tensor2.col, hes]
    have hcolL : (ls.col n).data.length = B := by simp [Tensor2.col, hls]
    have hne : (notEosed n lengths).data.length = B := by simp [notEosed, hlen]
    have hmulE : (tMul (es.col n) (notEosed n lengths)).data.length = B := by
      simp [tMul, List.length_zipWith, hcolE, hne]
    have hmulL : (tMul (ls.col n) (notEosed n lengths)).data.length = B := by
      simp [tMul, List.length_zipWith, hcolL, hne]
    have hE : (tMul (es.col n) (notEosed n lengths)).data.getD b 0
        = (es.data.getD b []).getD n 0 * (if n < lengths.getD b 0 then (1 : ℚ) else 0) := by
      show (List.zipWith _ _ _).getD b 0 = _
      rw [getD_zipWith (by rw [hcolE]; exact hb) (by rw [hne]; exact hb)]
      show (List.map _ es.data).getD b 0 * (List.map _ lengths).getD b 0 = _
      rw [getD_map _ es.data b [] 0 (by rw [hes]; exact hb),
        getD_map _ lengths b 0 0 (by rw [hlen]; exact hb)]
    have hL : (tMul (ls.col n) (notEosed n lengths)).data.getD b 0
        = (ls.data.getD b []).getD n 0 * (if n < lengths.getD b 0 then (1 : ℚ) else 0) := by
      show (List.zipWith _ _ _).getD b 0 = _
      rw [getD_zipWith (by rw [hcolL]; exact hb) (by rw [hne]; exact hb)]
      show (List.map _ ls.data).getD b 0 * (List.map _ lengths).getD b 0 = _
      rw [getD_map _ ls.data b [] 0 (by rw [hls]; exact hb),
        getD_map _ lengths b 0 0 (by rw [hlen]; exact hb)]
    constructor
    · show (List.zipWith _ _ _).getD b 0 = _
      rw [getD_zipWith (by rw [hl1]; exact hb) (by rw [hmulE]; exact hb), ih1, hE,
        Finset.sum_range_succ]
      ring
    · show (List.zipWith _ _ _).getD b 0 = _
      rw [getD_zipWith (by rw [hl2]; exact hb) (by rw [hmulL]; exact hb), ih2, hL,
        Finset.sum_range_succ]
      ring

lemma sum_masked (r : ℕ → ℚ) (L cols : ℕ) (h : L ≤ cols) :
    ∑ i ∈ Finset.range cols, r i * (if i < L then (1 : ℚ) else 0)
      = ∑ i ∈ Finset.range L, r i := by
  have h1 : ∑ i ∈ Finset.range L, r i * (if i < L then (1 : ℚ) else 0)
      = ∑ i ∈ Finset.range cols, r i * (if i < L then (1 : ℚ) else 0) := by
    refine Finset.sum_subset (Finset.range_subset.2 h) ?_
    intro x _ hxn
    rw [if_neg (by simpa using hxn), mul_zero]
  rw [← h1]
  refine Finset.sum_congr rfl ?_
  intro i hi
  rw [if_pos (Finset.mem_range.1 hi), mul_one]

lemma update_stats (b : MeanBaseline) (vs : List ℚ) :
    (b.update vs).nPoints = b.nPoints + vs.length
      ∧ (b.update vs).meanBaseline * ((b.nPoints + vs.length : ℕ) : ℚ)
        = b.meanBaseline * b.nPoints + vs.sum := by
  refine ⟨rfl, ?_⟩
  unfold MeanBaseline.update
  by_cases h : b.nPoints + vs.length = 0
  · have hn : b.nPoints = 0 := by omega
    have hv : vs = [] := List.length_eq_zero.mp (by omega)
    simp [h, hn, hv]
  · have hq : ((b.nPoints + vs.length : ℕ) : ℚ) ≠ 0 := Nat.cast_ne_zero.mpr h
    simp only [if_neg h]
    rw [div_mul_cancel₀ _ hq]

lemma applyUpdates_stats (vss : List (List ℚ)) : ∀ b : MeanBaseline,
    (applyUpdates b vss).nPoints = b.nPoints + vss.flatten.length
      ∧ (applyUpdates b vss).meanBaseline * (((applyUpdates b vss).nPoints : ℕ) : ℚ)
        = b.meanBaseline * b.nPoints + vss.flatten.sum := by
  induction vss with
  | nil => intro b; simp [applyUpdates]
  | cons vs vss ih =>
    intro b
    have h1 := update_stats b vs
    have h2 := ih (b.update vs)
    have hstep : applyUpdates b (vs :: vss) = applyUpdates (b.update vs) vss := rfl
    constructor
    · rw [hstep, h2.1, h1.1]
      simp [List.flatten]
      omega
    · rw [hstep, h2.2, h1.1, h1.2]
      simp [List.flatten]
      ring

lemma predict_applyUpdates (vss : List (List ℚ)) (h : 0 < vss.flatten.length) :
    (applyUpdates MeanBaseline.fresh vss).predict = vss.flatten.sum / vss.flatten.length := by
  have hs := applyUpdates_stats vss MeanBaseline.fresh
  have hn : (applyUpdates MeanBaseline.fresh vss).nPoints = vss.flatten.length := by
    simpa [MeanBaseline.fresh] using hs.1
  have hm := hs.2
  rw [hn] at hm
  simp only [MeanBaseline.fresh] at hm
  rw [MeanBaseline.predict, eq_div_iff (by exact_mod_cast Nat.pos_iff_ne_zero.mp h)]
  calc (applyUpdates MeanBaseline.fresh vss).meanBaseline * (vss.flatten.length : ℚ)
      = (0 : ℚ) * ((0 : ℕ) : ℚ) + vss.flatten.sum := hm
    _ = vss.flatten.sum := by ring

lemma findIdx_eos_char (eos : ℕ) (row : List ℕ) :
    (∃ i, row.findIdx? (· = eos) = some i ∧ i < row.length
        ∧ row.getD i (eos + 1) = eos ∧ ∀ j, j < i → row.getD j (eos + 1) ≠ eos)
    ∨ (row.findIdx? (· = eos) = none
        ∧ ∀ i, i < row.length → row.getD i (eos + 1) ≠ eos) := by
  induction row with
  | nil =>
    right
    exact ⟨rfl, fun i hi => absurd hi (by simp)⟩
  | cons x xs ih =>
    by_cases hx : x = eos
    · left
      refine ⟨0, ?_, by simp, by simpa using hx, fun j hj => absurd hj (by omega)⟩
      simp [List.findIdx?_cons, hx]
    · have hcons : (x :: xs).findIdx? (· = eos)
          = (xs.findIdx? (· = eos)).map (fun k => k + 1) := by
        rw [List.findIdx?_cons, if_neg (by simpa using hx)]
        simp
      rcases ih with ⟨i, hfi, hi, hie, hmin⟩ | ⟨hfn, hall⟩
      · left
        refine ⟨i + 1, ?_, by simpa using hi, by simpa using hie, ?_⟩
        · rw [hcons, hfi]; rfl
        · intro j hj
          match j with
          | 0 => simpa using hx
          | k + 1 =>
            have : k < i := by omega
            simpa using hmin k this
      · right
        refine ⟨by rw [hcons, hfn]; rfl, ?_⟩
        intro i hi
        match i with
        | 0 => simpa using hx
        | k + 1 =>
          have : k < xs.length := by simpa using hi
          simpa using hall k this

lemma rowLength_char (eos maxLen : ℕ) (row : List ℕ) (hr : row.length = maxLen)
    (h0 : 0 < maxLen) :
    (1 ≤ rowLength eos maxLen row ∧ rowLength eos maxLen row ≤ maxLen)
    ∧ ((∃ i, i < maxLen ∧ row.getD i (eos + 1) = eos
          ∧ (∀ j, j < i → row.getD j (eos + 1) ≠ eos)
          ∧ rowLength eos maxLen row = i + 1)
       ∨ ((∀ i, i < maxLen → row.getD i (eos + 1) ≠ eos)
          ∧ rowLength eos maxLen row = maxLen)) := by
  rcases findIdx_eos_char eos row with ⟨i, hfi, hi, hie, hmin⟩ | ⟨hfn, hall⟩
  · have hrl : rowLength eos maxLen row = i + 1 := by
      unfold rowLength
      rw [hfi]
    refine ⟨⟨by omega, by rw [hrl]; omega⟩, Or.inl ⟨i, by omega, hie, hmin, hrl⟩⟩
  · have hrl : rowLength eos maxLen row = maxLen := by
      unfold rowLength
      rw [hfn]
    exact ⟨⟨by omega, by omega⟩, Or.inr ⟨fun i hi => hall i (by omega), hrl⟩⟩

lemma rewardOf_length (acc : Tensor) : (rewardOf acc).data.length = acc.data.length := by
  simp [rewardOf, tAddS, tScale, tSubS]

lemma rewardOf_getD (acc : Tensor) (b : ℕ) (hb : b < acc.data.length) :
    (rewardOf acc).data.getD b 0 = (acc.data.getD b 0 - 1) * 2 + 1 := by
  unfold rewardOf tAddS tScale tSubS
  rw [getD_map _ _ b 0 0 (by simpa using hb), getD_map _ _ b 0 0 (by simpa using hb),
    getD_map _ _ b 0 0 hb]
  ring

/-! ### Claim theorems -/

/-- C4: for every batch element, the reward used for the policy gradient equals
`(acc - 1) * 2 + 1`, so `acc = 1` yields reward 1 and `acc = 0` yields reward
-1 (an affine, monotonic function of `acc`), and the training loss signal fed
into the policy-gradient term equals `-reward` (src/game.py lines 161-163). -/
theorem reward_mapping (acc : Tensor) (b : ℕ) (hb : b < acc.data.length) :
    (rewardOf acc).data.getD b 0 = (acc.data.getD b 0 - 1) * 2 + 1
    ∧ (acc.data.getD b 0 = 1 → (rewardOf acc).data.getD b 0 = 1)
    ∧ (acc.data.getD b 0 = 0 → (rewardOf acc).data.getD b 0 = -1)
    ∧ (lossSignalOf acc).data.getD b 0 = -((rewardOf acc).data.getD b 0)
    ∧ ∀ (acc' : Tensor) (b' : ℕ), b' < acc'.data.length →
        acc.data.getD b 0 ≤ acc'.data.getD b' 0 →
        (rewardOf acc).data.getD b 0 ≤ (rewardOf acc').data.getD b' 0 := by
  have h1 := rewardOf_getD acc b hb
  refine ⟨h1, ?_, ?_, ?_, ?_⟩
  · intro h; rw [h1, h]; norm_num
  · intro h; rw [h1, h]; norm_num
  · unfold lossSignalOf tNeg
    rw [getD_map _ _ b 0 0 (by rw [rewardOf_length]; exact hb)]
  · intro acc' b' hb' hle
    rw [h1, rewardOf_getD acc' b' hb']
    linarith

/-- C4 witness: the reward mapping evaluated on the concrete accuracy tensor
`[1, 0]` at batch element 0. -/
theorem reward_mapping_witness :
    (rewardOf ⟨[1, 0], false⟩).data.getD 0 0
        = ((Tensor.mk [1, 0] false).data.getD 0 0 - 1) * 2 + 1
    ∧ ((Tensor.mk [1, 0] false).data.getD 0 0 = 1 →
        (rewardOf ⟨[1, 0], false⟩).data.getD 0 0 = 1)
    ∧ ((Tensor.mk [1, 0] false).data.getD 0 0 = 0 →
        (rewardOf ⟨[1, 0], false⟩).data.getD 0 0 = -1)
    ∧ (lossSignalOf ⟨[1, 0], false⟩).data.getD 0 0
        = -((rewardOf ⟨[1, 0], false⟩).data.getD 0 0)
    ∧ ∀ (acc' : Tensor) (b' : ℕ), b' < acc'.data.length →
        (Tensor.mk [1, 0] false).data.getD 0 0 ≤ acc'.data.getD b' 0 →
        (rewardOf ⟨[1, 0], false⟩).data.getD 0 0 ≤ (rewardOf acc').data.getD b' 0 :=
  reward_mapping ⟨[1, 0], false⟩ 0 (by simp)

lemma getD_mem (messages : List (List ℕ)) (b : ℕ) (hb : b < messages.length) :
    messages.getD b [] ∈ messages := by
  rw [List.getD_eq_getElem?_getD, List.getElem?_eq_getElem hb]
  exact List.getElem_mem hb

/-- C5: the Sequence Length Resolver maps a `(B, max_len)` batch to a `(B,)`
tensor of effective lengths: `1 +` the index of the first EOS in the row, or
`max_len` if the row has no EOS; every length lies in `[1, max_len]`; on the
concrete batch `[[3,5,0,0,0],[7,0,0,0,0],[2,2,2,2,2],[9,0,0,0,0]]` with EOS 0
it returns `[3,2,5,2]`. -/
theorem find_lengths_spec (maxLen : ℕ) (h0 : 0 < maxLen) (messages : List (List ℕ))
    (hrows : ∀ r ∈ messages, r.length = maxLen) :
    (find_lengths 0 messages).length = messages.length
    ∧ (∀ b, b < messages.length →
        1 ≤ (find_lengths 0 messages).getD b 0
        ∧ (find_lengths 0 messages).getD b 0 ≤ maxLen
        ∧ ((∃ i, i < maxLen ∧ (messages.getD b []).getD i 1 = 0
              ∧ (∀ j, j < i → (messages.getD b []).getD j 1 ≠ 0)
              ∧ (find_lengths 0 messages).getD b 0 = i + 1)
           ∨ ((∀ i, i < maxLen → (messages.getD b []).getD i 1 ≠ 0)
              ∧ (find_lengths 0 messages).getD b 0 = maxLen)))
    ∧ find_lengths 0 [[3,5,0,0,0],[7,0,0,0,0],[2,2,2,2,2],[9,0,0,0,0]] = [3,2,5,2] := by
  refine ⟨by simp [find_lengths], ?_, by decide⟩
  intro b hb
  have hcols : numCols messages = maxLen := by
    match messages, hb with
    | r :: rest, _ => exact hrows r (List.mem_cons_self r rest)
  have hrow : (messages.getD b []).length = maxLen :=
    hrows (messages.getD b []) (getD_mem messages b hb)
  have hfl : (find_lengths 0 messages).getD b 0
      = rowLength 0 (numCols messages) (messages.getD b []) := by
    unfold find_lengths
    exact getD_map _ messages b [] 0 hb
  obtain ⟨⟨hge, hle⟩, hchar⟩ := rowLength_char 0 maxLen (messages.getD b []) hrow h0
  rw [hcols] at hfl
  rw [hfl]
  exact ⟨hge, hle, hchar⟩

/-- C5 witness: the resolver on the concrete end-to-end batch of the spec with
`max_len = 5`. -/
theorem find_lengths_spec_witness :
    (find_lengths 0 [[3,5,0,0,0],[7,0,0,0,0],[2,2,2,2,2],[9,0,0,0,0]]).length
        = ([[3,5,0,0,0],[7,0,0,0,0],[2,2,2,2,2],[9,0,0,0,0]] : List (List ℕ)).length
    ∧ (∀ b, b < ([[3,5,0,0,0],[7,0,0,0,0],[2,2,2,2,2],[9,0,0,0,0]] : List (List ℕ)).length →
        1 ≤ (find_lengths 0 [[3,5,0,0,0],[7,0,0,0,0],[2,2,2,2,2],[9,0,0,0,0]]).getD b 0
        ∧ (find_lengths 0 [[3,5,0,0,0],[7,0,0,0,0],[2,2,2,2,2],[9,0,0,0,0]]).getD b 0 ≤ 5
        ∧ ((∃ i, i < 5
              ∧ (([[3,5,0,0,0],[7,0,0,0,0],[2,2,2,2,2],[9,0,0,0,0]] :
                    List (List ℕ)).getD b []).getD i 1 = 0
              ∧ (∀ j, j < i → (([[3,5,0,0,0],[7,0,0,0,0],[2,2,2,2,2],[9,0,0,0,0]] :
                    List (List ℕ)).getD b []).getD j 1 ≠ 0)
              ∧ (find_lengths 0 [[3,5,0,0,0],[7,0,0,0,0],[2,2,2,2,2],[9,0,0,0,0]]).getD b 0
                  = i + 1)
           ∨ ((∀ i, i < 5 → (([[3,5,0,0,0],[7,0,0,0,0],[2,2,2,2,2],[9,0,0,0,0]] :
                    List (List ℕ)).getD b []).getD i 1 ≠ 0)
              ∧ (find_lengths 0 [[3,5,0,0,0],[7,0,0,0,0],[2,2,2,2,2],[9,0,0,0,0]]).getD b 0
                  = 5)))
    ∧ find_lengths 0 [[3,5,0,0,0],[7,0,0,0,0],[2,2,2,2,2],[9,0,0,0,0]] = [3,2,5,2] :=
  find_lengths_spec 5 (by decide) [[3,5,0,0,0],[7,0,0,0,0],[2,2,2,2,2],[9,0,0,0,0]]
    (by decide)

/-- C6: the Baseline Tracker maps each key to an independent estimator, with
unknown keys bound to a fresh estimator; `predict` before any `update` returns
0; after any sequence of updates, `predict` returns the mean of all individual
observations weighted by total observation count — in particular
`update [2,4]` then `update [6]` gives `predict = 4`, not the batch-mean
average 4.5. -/
theorem baseline_tracker_spec :
    (∀ k, baselinesInit k = MeanBaseline.fresh)
    ∧ MeanBaseline.fresh.predict = 0
    ∧ (∀ (bs : String → MeanBaseline) (k k' : String) (vs : List ℚ), k' ≠ k →
        baselinesUpdate bs k vs k' = bs k')
    ∧ (∀ vss : List (List ℚ), 0 < vss.flatten.length →
        (applyUpdates MeanBaseline.fresh vss).predict
          = vss.flatten.sum / vss.flatten.length)
    ∧ (applyUpdates MeanBaseline.fresh [[2, 4], [6]]).predict = 4 := by
  refine ⟨fun _ => rfl, rfl, ?_, predict_applyUpdates, ?_⟩
  · intro bs k k' vs h
    simp [baselinesUpdate, h]
  · norm_num [applyUpdates, MeanBaseline.update, MeanBaseline.predict, MeanBaseline.fresh]

/-- C6 witness: the running-mean clause of the tracker evaluated on the
concrete update sequence `[2,4]` then `[6]`. -/
theorem baseline_tracker_spec_witness :
    (applyUpdates MeanBaseline.fresh [[2, 4], [6]]).predict
      = ([[2, 4], [6]] : List (List ℚ)).flatten.sum
          / ([[2, 4], [6]] : List (List ℚ)).flatten.length :=
  baseline_tracker_spec.2.2.2.1 [[2, 4], [6]] (by simp)

/-- C1 (code bug): `_verify_batch_sizes` is imported by src/game.py (line 9)
but never invoked, so `forward` performs no batch-size check: with inputs of
batch size 1 (one label, one image column, one sampled message row) and a
Receiver that returns a `receiver_output` of batch size 2, the call completes
and returns a result — the mismatched tensor is handed on to the logging
strategy — instead of raising a batch-size-mismatch error. -/
theorem forward_accepts_mismatched_receiver_batch :
    (forward ⟨1, 1, 1, 1⟩
        ⟨fun _ _ _ => ([[0]], ⟨[[1/2]], true⟩, ⟨[[1/3]], true⟩),
         fun _ _ _ _ _ => ⟨[[1]], true⟩⟩
        ⟨fun _ _ _ => (⟨[5, 7], true⟩, ⟨[1/4], true⟩, ⟨[1/5], true⟩)⟩
        (fun _ _ _ _ _ _ => (⟨[1], true⟩, [("acc", AuxVal.t1 ⟨[1], false⟩)]))
        (fun _ _ => (2, []))
        true baselinesInit
        ⟨[[10]], [0], [0], [0], [[1]], [1]⟩ ⟨[3], false⟩ none).map
      (fun r => r.interaction.receiverOutput.data.length) = some 2 := by
  rfl

/-- C2: the scalar returned as `optimized_loss` equals
`policy_length_loss + policy_loss - weighted_entropy` (plus the structural term
only when that path is active), where
`policy_length_loss = mean((length_loss - baseline("length")) * effective_log_prob_s)`,
`policy_loss = mean((loss.detach() - baseline("loss")) * (effective_log_prob_s + log_prob_r))`,
`length_loss = message_lengths * length_cost`, and
`weighted_entropy = mean(effective_entropy_s) * sender_entropy_coeff
+ mean(entropy_r) * receiver_entropy_coeff` (src/game.py lines 179-199). -/
theorem optimized_loss_decomposition (p : Params) (sender : Sender) (receiver : Receiver)
    (lossFunctional : LossFunctional) (lossStructural : LossStructural)
    (training : Bool) (baselines : String → MeanBaseline)
    (senderInput : SenderInput) (labels : Tensor) (receiverInput : Option Tensor)
    (acc : Tensor)
    (hacc : accLookup sender receiver lossFunctional training senderInput labels
      receiverInput = some acc) :
    (forward p sender receiver lossFunctional lossStructural training baselines
        senderInput labels receiverInput).map ForwardResult.optimizedLoss
      = some (
          let st := stage1 sender receiver lossFunctional training senderInput labels
            receiverInput
          let eff := effLoop (numCols st.messages) st.entropy_s st.log_prob_s
            st.message_lengths (tZerosLike st.entropy_r) (tZerosLike st.log_prob_r)
          let effective_entropy_s := tDiv eff.1 (lengthsFloat st.message_lengths)
          let effective_log_prob_s := eff.2
          let length_loss := tScale p.lengthCost (lengthsFloat st.message_lengths)
          let policy_length_loss :=
            tMean (tMul (tSubS length_loss ((baselines "length").predict))
              effective_log_prob_s)
          let policy_loss :=
            tMean (tMul (tSubS (lossSignalOf acc).detach ((baselines "loss").predict))
              (tAdd effective_log_prob_s st.log_prob_r))
          let weighted_entropy :=
            tMean effective_entropy_s * p.senderEntropyCoeff
              + tMean st.entropy_r * p.receiverEntropyCoeff
          policy_length_loss + policy_loss - weighted_entropy
            + (if 0 < p.weightStructuralLoss then
                p.weightStructuralLoss *
                  (lossStructural senderInput.captions
                    (sender.teacherForced st.imagesTarget senderInput.captions
                      senderInput.sequenceLengths true false)).1
              else 0)) := by
  rw [forward_eq_core p sender receiver lossFunctional lossStructural training baselines
    senderInput labels receiverInput acc hacc]
  rw [Option.map_some']
  by_cases h : 0 < p.weightStructuralLoss
  · simp only [forwardCore, if_pos h]
  · simp only [forwardCore, if_neg h, add_zero]

/-- C2 witness: the loss decomposition evaluated on a concrete batch-size-1
game (message `[[0]]`, accuracy 1, all coefficients 1). -/
theorem optimized_loss_decomposition_witness :
    (forward ⟨1, 1, 1, 1⟩
        ⟨fun _ _ _ => ([[0]], ⟨[[1/2]], true⟩, ⟨[[1/3]], true⟩),
         fun _ _ _ _ _ => ⟨[[1]], true⟩⟩
        ⟨fun _ _ _ => (⟨[9], true⟩, ⟨[1/4], true⟩, ⟨[1/5], true⟩)⟩
        (fun _ _ _ _ _ _ => (⟨[1], true⟩, [("acc", AuxVal.t1 ⟨[1], false⟩)]))
        (fun _ _ => (2, []))
        false baselinesInit
        ⟨[[10]], [0], [0], [0], [[1]], [1]⟩ ⟨[0], false⟩ none).map
      ForwardResult.optimizedLoss
      = some (
          let st := stage1
            ⟨fun _ _ _ => ([[0]], ⟨[[1/2]], true⟩, ⟨[[1/3]], true⟩),
             fun _ _ _ _ _ => ⟨[[1]], true⟩⟩
            ⟨fun _ _ _ => (⟨[9], true⟩, ⟨[1/4], true⟩, ⟨[1/5], true⟩)⟩
            (fun _ _ _ _ _ _ => (⟨[1], true⟩, [("acc", AuxVal.t1 ⟨[1], false⟩)]))
            false ⟨[[10]], [0], [0], [0], [[1]], [1]⟩ ⟨[0], false⟩ none
          let eff := effLoop (numCols st.messages) st.entropy_s st.log_prob_s
            st.message_lengths (tZerosLike st.entropy_r) (tZerosLike st.log_prob_r)
          let effective_entropy_s := tDiv eff.1 (lengthsFloat st.message_lengths)
          let effective_log_prob_s := eff.2
          let length_loss := tScale 1 (lengthsFloat st.message_lengths)
          let policy_length_loss :=
            tMean (tMul (tSubS length_loss ((baselinesInit "length").predict))
              effective_log_prob_s)
          let policy_loss :=
            tMean (tMul (tSubS (lossSignalOf ⟨[1], false⟩).detach
              ((baselinesInit "loss").predict)) (tAdd effective_log_prob_s st.log_prob_r))
          let weighted_entropy :=
            tMean effective_entropy_s * 1 + tMean st.entropy_r * 1
          policy_length_loss + policy_loss - weighted_entropy
            + (if (0 : ℚ) < 1 then
                (1 : ℚ) *
                  ((fun (_ : List (List ℕ)) (_ : Tensor2) => ((2 : ℚ), ([] : AuxInfo)))
                    [[1]]
                    ((fun _ _ _ _ _ => (⟨[[1]], true⟩ : Tensor2)) st.imagesTarget
                      ([[1]] : List (List ℕ)) ([1] : List ℕ) true false)).1
              else 0)) :=
  optimized_loss_decomposition ⟨1, 1, 1, 1⟩
    ⟨fun _ _ _ => ([[0]], ⟨[[1/2]], true⟩, ⟨[[1/3]], true⟩),
     fun _ _ _ _ _ => ⟨[[1]], true⟩⟩
    ⟨fun _ _ _ => (⟨[9], true⟩, ⟨[1/4], true⟩, ⟨[1/5], true⟩)⟩
    (fun _ _ _ _ _ _ => (⟨[1], true⟩, [("acc", AuxVal.t1 ⟨[1], false⟩)]))
    (fun _ _ => (2, []))
    false baselinesInit
    ⟨[[10]], [0], [0], [0], [[1]], [1]⟩ ⟨[0], false⟩ none ⟨[1], false⟩ rfl

lemma eff_aggregates (cols B b : ℕ) (es ls : Tensor2) (lengths : List ℕ)
    (hes : es.data.length = B) (hls : ls.data.length = B) (hlen : lengths.length = B)
    (hb : b < B) (hL : lengths.getD b 0 ≤ cols) :
    (tDiv (effLoop cols es ls lengths ⟨List.replicate B 0, false⟩
          ⟨List.replicate B 0, false⟩).1 (lengthsFloat lengths)).data.getD b 0
      = (∑ i ∈ Finset.range (lengths.getD b 0), (es.data.getD b []).getD i 0)
          / (lengths.getD b 0 : ℚ)
    ∧ (effLoop cols es ls lengths ⟨List.replicate B 0, false⟩
          ⟨List.replicate B 0, false⟩).2.data.getD b 0
      = ∑ i ∈ Finset.range (lengths.getD b 0), (ls.data.getD b []).getD i 0 := by
  have hz : (⟨List.replicate B 0, false⟩ : Tensor).data.length = B := by simp
  obtain ⟨h1, h2⟩ := effLoop_getD cols B b es ls lengths hes hls hlen hb
    ⟨List.replicate B 0, false⟩ ⟨List.replicate B 0, false⟩ hz hz
  rw [getD_replicate_zero, zero_add] at h1 h2
  obtain ⟨hlive, _⟩ := effLoop_length cols B es ls lengths hes hls hlen
    ⟨List.replicate B 0, false⟩ ⟨List.replicate B 0, false⟩ hz hz
  have hlf : (lengthsFloat lengths).data.length = B := by
    simp only [lengthsFloat, List.length_map]
    exact hlen
  have hden : (lengthsFloat lengths).data.getD b 0 = ((lengths.getD b 0 : ℕ) : ℚ) := by
    show (List.map _ lengths).getD b 0 = _
    exact getD_map (fun (n : ℕ) => (n : ℚ)) lengths b 0 0 (by rw [hlen]; exact hb)
  constructor
  · show (List.zipWith _ _ _).getD b 0 = _
    rw [getD_zipWith (by rw [hlive]; exact hb) (by rw [hlf]; exact hb), h1,
      sum_masked (fun i => (es.data.getD b []).getD i 0) _ _ hL, hden]
  · rw [h2, sum_masked (fun i => (ls.data.getD b []).getD i 0) _ _ hL]

/-- C3: for batch element `b` with effective length `L = message_lengths[b]`
(with `L` no larger than the number of message columns), the masking loop of
src/game.py lines 167-177 yields `effective_entropy_s[b] = (sum of
entropy_s[b,i] for i < L) / L` and `effective_log_prob_s[b]` equal to the
unnormalized sum of `log_prob_s[b,i]` for `i < L`; entries at positions `>= L`
do not influence either aggregate. -/
theorem effective_masking (cols B b : ℕ) (es ls : Tensor2) (lengths : List ℕ)
    (hes : es.data.length = B) (hls : ls.data.length = B) (hlen : lengths.length = B)
    (hb : b < B) (hL : lengths.getD b 0 ≤ cols) :
    (tDiv (effLoop cols es ls lengths ⟨List.replicate B 0, false⟩
          ⟨List.replicate B 0, false⟩).1 (lengthsFloat lengths)).data.getD b 0
      = (∑ i ∈ Finset.range (lengths.getD b 0), (es.data.getD b []).getD i 0)
          / (lengths.getD b 0 : ℚ)
    ∧ (effLoop cols es ls lengths ⟨List.replicate B 0, false⟩
          ⟨List.replicate B 0, false⟩).2.data.getD b 0
      = ∑ i ∈ Finset.range (lengths.getD b 0), (ls.data.getD b []).getD i 0
    ∧ ∀ (es' ls' : Tensor2), es'.data.length = B → ls'.data.length = B →
        (∀ i, i < lengths.getD b 0 →
          (es'.data.getD b []).getD i 0 = (es.data.getD b []).getD i 0) →
        (∀ i, i < lengths.getD b 0 →
          (ls'.data.getD b []).getD i 0 = (ls.data.getD b []).getD i 0) →
        (tDiv (effLoop cols es' ls' lengths ⟨List.replicate B 0, false⟩
              ⟨List.replicate B 0, false⟩).1 (lengthsFloat lengths)).data.getD b 0
          = (tDiv (effLoop cols es ls lengths ⟨List.replicate B 0, false⟩
              ⟨List.replicate B 0, false⟩).1 (lengthsFloat lengths)).data.getD b 0
        ∧ (effLoop cols es' ls' lengths ⟨List.replicate B 0, false⟩
              ⟨List.replicate B 0, false⟩).2.data.getD b 0
          = (effLoop cols es ls lengths ⟨List.replicate B 0, false⟩
              ⟨List.replicate B 0, false⟩).2.data.getD b 0 := by
  obtain ⟨ha, hb2⟩ := eff_aggregates cols B b es ls lengths hes hls hlen hb hL
  refine ⟨ha, hb2, ?_⟩
  intro es' ls' hes' hls' hagreeE hagreeL
  obtain ⟨ha', hb2'⟩ := eff_aggregates cols B b es' ls' lengths hes' hls' hlen hb hL
  have hsumE : ∑ i ∈ Finset.range (lengths.getD b 0), (es'.data.getD b []).getD i 0
      = ∑ i ∈ Finset.range (lengths.getD b 0), (es.data.getD b []).getD i 0 :=
    Finset.sum_congr rfl (fun i hi => hagreeE i (Finset.mem_range.1 hi))
  have hsumL : ∑ i ∈ Finset.range (lengths.getD b 0), (ls'.data.getD b []).getD i 0
      = ∑ i ∈ Finset.range (lengths.getD b 0), (ls.data.getD b []).getD i 0 :=
    Finset.sum_congr rfl (fun i hi => hagreeL i (Finset.mem_range.1 hi))
  constructor
  · rw [ha, ha', hsumE]
  · rw [hb2, hb2', hsumL]

/-- C3 witness: the masking aggregates on a concrete 2-by-3 batch with
effective lengths `[2, 3]`, evaluated at batch element 0. -/
theorem effective_masking_witness :
    (tDiv (effLoop 3 ⟨[[1,2,3],[4,5,6]], true⟩ ⟨[[7,8,9],[10,11,12]], true⟩ [2,3]
          ⟨List.replicate 2 0, false⟩ ⟨List.replicate 2 0, false⟩).1
        (lengthsFloat [2,3])).data.getD 0 0
      = (∑ i ∈ Finset.range (([2,3] : List ℕ).getD 0 0),
          ((Tensor2.mk [[1,2,3],[4,5,6]] true).data.getD 0 []).getD i 0)
          / ((([2,3] : List ℕ).getD 0 0 : ℕ) : ℚ)
    ∧ (effLoop 3 ⟨[[1,2,3],[4,5,6]], true⟩ ⟨[[7,8,9],[10,11,12]], true⟩ [2,3]
          ⟨List.replicate 2 0, false⟩ ⟨List.replicate 2 0, false⟩).2.data.getD 0 0
      = ∑ i ∈ Finset.range (([2,3] : List ℕ).getD 0 0),
          ((Tensor2.mk [[7,8,9],[10,11,12]] true).data.getD 0 []).getD i 0
    ∧ ∀ (es' ls' : Tensor2), es'.data.length = 2 → ls'.data.length = 2 →
        (∀ i, i < ([2,3] : List ℕ).getD 0 0 →
          (es'.data.getD 0 []).getD i 0
            = ((Tensor2.mk [[1,2,3],[4,5,6]] true).data.getD 0 []).getD i 0) →
        (∀ i, i < ([2,3] : List ℕ).getD 0 0 →
          (ls'.data.getD 0 []).getD i 0
            = ((Tensor2.mk [[7,8,9],[10,11,12]] true).data.getD 0 []).getD i 0) →
        (tDiv (effLoop 3 es' ls' [2,3]
              ⟨List.replicate 2 0, false⟩ ⟨List.replicate 2 0, false⟩).1
            (lengthsFloat [2,3])).data.getD 0 0
          = (tDiv (effLoop 3 ⟨[[1,2,3],[4,5,6]], true⟩ ⟨[[7,8,9],[10,11,12]], true⟩ [2,3]
              ⟨List.replicate 2 0, false⟩ ⟨List.replicate 2 0, false⟩).1
            (lengthsFloat [2,3])).data.getD 0 0
        ∧ (effLoop 3 es' ls' [2,3]
              ⟨List.replicate 2 0, false⟩ ⟨List.replicate 2 0, false⟩).2.data.getD 0 0
          = (effLoop 3 ⟨[[1,2,3],[4,5,6]], true⟩ ⟨[[7,8,9],[10,11,12]], true⟩ [2,3]
              ⟨List.replicate 2 0, false⟩ ⟨List.replicate 2 0, false⟩).2.data.getD 0 0 :=
  effective_masking 3 2 0 ⟨[[1,2,3],[4,5,6]], true⟩ ⟨[[7,8,9],[10,11,12]], true⟩ [2,3]
    rfl rfl rfl (by decide) (by decide)

/-- C7: `forward` mutates the baseline trackers only in training mode — exactly
one `update("loss", loss)` followed by one `update("length", length_loss)` per
call (src/game.py lines 216-218), applied after all forward computation: the
returned loss, interaction and Sender-call trace are the same as those of an
evaluation-mode call, which leaves the baselines untouched (it only calls
`predict`). -/
theorem baseline_update_frame (p : Params) (sender : Sender) (receiver : Receiver)
    (lossFunctional : LossFunctional) (lossStructural : LossStructural)
    (baselines : String → MeanBaseline)
    (senderInput : SenderInput) (labels : Tensor) (receiverInput : Option Tensor)
    (acc : Tensor)
    (hacc : accLookup sender receiver lossFunctional false senderInput labels
      receiverInput = some acc) :
    forward p sender receiver lossFunctional lossStructural false baselines
        senderInput labels receiverInput
      = some (forwardCore p sender receiver lossFunctional lossStructural false baselines
          senderInput labels receiverInput acc)
    ∧ (forwardCore p sender receiver lossFunctional lossStructural false baselines
        senderInput labels receiverInput acc).baselines = baselines
    ∧ forward p sender receiver lossFunctional lossStructural true baselines
        senderInput labels receiverInput
      = some (forwardCore p sender receiver lossFunctional lossStructural true baselines
          senderInput labels receiverInput acc)
    ∧ (forwardCore p sender receiver lossFunctional lossStructural true baselines
        senderInput labels receiverInput acc).baselines
      = baselinesUpdate (baselinesUpdate baselines "loss" (lossSignalOf acc).data)
          "length"
          (tScale p.lengthCost (lengthsFloat
            (stage1 sender receiver lossFunctional true senderInput labels
              receiverInput).message_lengths)).data
    ∧ (forwardCore p sender receiver lossFunctional lossStructural true baselines
        senderInput labels receiverInput acc).optimizedLoss
      = (forwardCore p sender receiver lossFunctional lossStructural false baselines
          senderInput labels receiverInput acc).optimizedLoss
    ∧ (forwardCore p sender receiver lossFunctional lossStructural true baselines
        senderInput labels receiverInput acc).interaction
      = (forwardCore p sender receiver lossFunctional lossStructural false baselines
          senderInput labels receiverInput acc).interaction
    ∧ (forwardCore p sender receiver lossFunctional lossStructural true baselines
        senderInput labels receiverInput acc).senderCalls
      = (forwardCore p sender receiver lossFunctional lossStructural false baselines
          senderInput labels receiverInput acc).senderCalls := by
  have hacc' : accLookup sender receiver lossFunctional true senderInput labels
      receiverInput = some acc := by
    rw [accLookup_training_const]
    exact hacc
  refine ⟨forward_eq_core p sender receiver lossFunctional lossStructural false baselines
      senderInput labels receiverInput acc hacc, rfl,
    forward_eq_core p sender receiver lossFunctional lossStructural true baselines
      senderInput labels receiverInput acc hacc', rfl, ?_, ?_, ?_⟩
  · simp only [forwardCore, stage1_training_const]
  · simp only [forwardCore, stage1_training_const]
  · simp only [forwardCore, stage1_training_const]

/-- C7 witness: the frame property evaluated on the concrete batch-size-1 game,
starting from fresh baselines. -/
theorem baseline_update_frame_witness :
    (let p : Params := ⟨1, 1, 1, 1⟩
     let sender : Sender :=
       ⟨fun _ _ _ => ([[0]], ⟨[[1/2]], true⟩, ⟨[[1/3]], true⟩),
        fun _ _ _ _ _ => ⟨[[1]], true⟩⟩
     let receiver : Receiver := ⟨fun _ _ _ => (⟨[9], true⟩, ⟨[1/4], true⟩, ⟨[1/5], true⟩)⟩
     let lf : LossFunctional :=
       fun _ _ _ _ _ _ => (⟨[1], true⟩, [("acc", AuxVal.t1 ⟨[1], false⟩)])
     let ls : LossStructural := fun _ _ => (2, [])
     let si : SenderInput := ⟨[[10]], [0], [0], [0], [[1]], [1]⟩
     let labels : Tensor := ⟨[0], false⟩
     let acc : Tensor := ⟨[1], false⟩
     forward p sender receiver lf ls false baselinesInit si labels none
       = some (forwardCore p sender receiver lf ls false baselinesInit si labels none acc)
     ∧ (forwardCore p sender receiver lf ls false baselinesInit si labels none
         acc).baselines = baselinesInit
     ∧ forward p sender receiver lf ls true baselinesInit si labels none
       = some (forwardCore p sender receiver lf ls true baselinesInit si labels none acc)
     ∧ (forwardCore p sender receiver lf ls true baselinesInit si labels none
         acc).baselines
       = baselinesUpdate (baselinesUpdate baselinesInit "loss" (lossSignalOf acc).data)
           "length"
           (tScale p.lengthCost (lengthsFloat
             (stage1 sender receiver lf true si labels none).message_lengths)).data
     ∧ (forwardCore p sender receiver lf ls true baselinesInit si labels none
         acc).optimizedLoss
       = (forwardCore p sender receiver lf ls false baselinesInit si labels none
           acc).optimizedLoss
     ∧ (forwardCore p sender receiver lf ls true baselinesInit si labels none
         acc).interaction
       = (forwardCore p sender receiver lf ls false baselinesInit si labels none
           acc).interaction
     ∧ (forwardCore p sender receiver lf ls true baselinesInit si labels none
         acc).senderCalls
       = (forwardCore p sender receiver lf ls false baselinesInit si labels none
           acc).senderCalls) := by
  exact baseline_update_frame ⟨1, 1, 1, 1⟩
    ⟨fun _ _ _ => ([[0]], ⟨[[1/2]], true⟩, ⟨[[1/3]], true⟩),
     fun _ _ _ _ _ => ⟨[[1]], true⟩⟩
    ⟨fun _ _ _ => (⟨[9], true⟩, ⟨[1/4], true⟩, ⟨[1/5], true⟩)⟩
    (fun _ _ _ _ _ _ => (⟨[1], true⟩, [("acc", AuxVal.t1 ⟨[1], false⟩)]))
    (fun _ _ => (2, []))
    baselinesInit ⟨[[10]], [0], [0], [0], [[1]], [1]⟩ ⟨[0], false⟩ none
    ⟨[1], false⟩ rfl

/-- C8: when `weight_structural_loss > 0`, `forward` re-invokes the Sender
exactly once in teacher-forcing mode with sampling disabled, records
`"loss_structural"` in `aux_info`, and adds
`weight_structural_loss * loss_struct` to the optimized loss; when the weight
is 0 the structural path is skipped entirely: one Sender invocation only, no
`"loss_structural"` entry, and no extra loss term (src/game.py lines 201-214). -/
theorem structural_path_gating (p : Params) (sender : Sender) (receiver : Receiver)
    (lossFunctional : LossFunctional) (lossStructural : LossStructural)
    (training : Bool) (baselines : String → MeanBaseline)
    (senderInput : SenderInput) (labels : Tensor) (receiverInput : Option Tensor)
    (acc : Tensor)
    (hacc : accLookup sender receiver lossFunctional training senderInput labels
      receiverInput = some acc)
    (hno : auxGet (stage1 sender receiver lossFunctional training senderInput labels
      receiverInput).aux1 "loss_structural" = none) :
    forward p sender receiver lossFunctional lossStructural training baselines
        senderInput labels receiverInput
      = some (forwardCore p sender receiver lossFunctional lossStructural training
          baselines senderInput labels receiverInput acc)
    ∧ (p.weightStructuralLoss = 0 →
        (forwardCore p sender receiver lossFunctional lossStructural training baselines
            senderInput labels receiverInput acc).senderCalls
          = [(stage1 sender receiver lossFunctional training senderInput labels
              receiverInput).sampledCall]
        ∧ auxGet (forwardCore p sender receiver lossFunctional lossStructural training
            baselines senderInput labels receiverInput acc).interaction.aux
            "loss_structural" = none
        ∧ (forwardCore p sender receiver lossFunctional lossStructural training baselines
            senderInput labels receiverInput acc).optimizedLoss
          = (forwardCore ⟨p.senderEntropyCoeff, p.receiverEntropyCoeff, p.lengthCost, 0⟩
              sender receiver lossFunctional lossStructural training baselines
              senderInput labels receiverInput acc).optimizedLoss)
    ∧ (0 < p.weightStructuralLoss →
        (forwardCore p sender receiver lossFunctional lossStructural training baselines
            senderInput labels receiverInput acc).senderCalls
          = [(stage1 sender receiver lossFunctional training senderInput labels
              receiverInput).sampledCall,
             SenderCall.teacherForced
               (stage1 sender receiver lossFunctional training senderInput labels
                 receiverInput).imagesTarget
               senderInput.captions senderInput.sequenceLengths true false]
        ∧ auxGet (forwardCore p sender receiver lossFunctional lossStructural training
            baselines senderInput labels receiverInput acc).interaction.aux
            "loss_structural"
          = some (AuxVal.t1 ⟨[(lossStructural senderInput.captions
              (sender.teacherForced
                (stage1 sender receiver lossFunctional training senderInput labels
                  receiverInput).imagesTarget
                senderInput.captions senderInput.sequenceLengths true false)).1],
              false⟩)
        ∧ (forwardCore p sender receiver lossFunctional lossStructural training baselines
            senderInput labels receiverInput acc).optimizedLoss
          = (forwardCore ⟨p.senderEntropyCoeff, p.receiverEntropyCoeff, p.lengthCost, 0⟩
              sender receiver lossFunctional lossStructural training baselines
              senderInput labels receiverInput acc).optimizedLoss
            + p.weightStructuralLoss * (lossStructural senderInput.captions
                (sender.teacherForced
                  (stage1 sender receiver lossFunctional training senderInput labels
                    receiverInput).imagesTarget
                  senderInput.captions senderInput.sequenceLengths true false)).1) := by
  obtain ⟨se, re, lc, w⟩ := p
  refine ⟨forward_eq_core _ sender receiver lossFunctional lossStructural training
    baselines senderInput labels receiverInput acc hacc, ?_, ?_⟩
  · intro hw
    simp only at hw
    subst hw
    refine ⟨?_, ?_, ?_⟩
    · simp only [forwardCore, if_neg (lt_irrefl (0 : ℚ))]
    · simp only [forwardCore, if_neg (lt_irrefl (0 : ℚ))]
      rw [auxGet_auxSet_other _ _ _ _ (by decide), auxGet_auxSet_other _ _ _ _ (by decide),
        auxGet_auxSet_other _ _ _ _ (by decide)]
      exact hno
    · rfl
  · intro hw
    simp only at hw
    refine ⟨?_, ?_, ?_⟩
    · simp only [forwardCore, if_pos hw]
    · simp only [forwardCore, if_pos hw]
      rw [auxGet_auxSet_other _ _ _ _ (by decide), auxGet_auxSet_other _ _ _ _ (by decide),
        auxGet_auxSet_other _ _ _ _ (by decide)]
      exact auxGet_auxSet_same _ _ _
    · simp only [forwardCore, if_pos hw, if_neg (lt_irrefl (0 : ℚ))]

/-- C8 witness: structural-path gating evaluated on the concrete batch-size-1
game with structural weight 1. -/
theorem structural_path_gating_witness :
    (let p : Params := ⟨1, 1, 1, 1⟩
     let p0 : Params := ⟨1, 1, 1, 0⟩
     let sender : Sender :=
       ⟨fun _ _ _ => ([[0]], ⟨[[1/2]], true⟩, ⟨[[1/3]], true⟩),
        fun _ _ _ _ _ => ⟨[[1]], true⟩⟩
     let receiver : Receiver := ⟨fun _ _ _ => (⟨[9], true⟩, ⟨[1/4], true⟩, ⟨[1/5], true⟩)⟩
     let lf : LossFunctional :=
       fun _ _ _ _ _ _ => (⟨[1], true⟩, [("acc", AuxVal.t1 ⟨[1], false⟩)])
     let ls : LossStructural := fun _ _ => (2, [])
     let si : SenderInput := ⟨[[10]], [0], [0], [0], [[1]], [1]⟩
     let labels : Tensor := ⟨[0], false⟩
     let acc : Tensor := ⟨[1], false⟩
     forward p sender receiver lf ls false baselinesInit si labels none
       = some (forwardCore p sender receiver lf ls false baselinesInit si labels none acc)
     ∧ (p.weightStructuralLoss = 0 →
         (forwardCore p sender receiver lf ls false baselinesInit si labels none
             acc).senderCalls
           = [(stage1 sender receiver lf false si labels none).sampledCall]
         ∧ auxGet (forwardCore p sender receiver lf ls false baselinesInit si labels none
             acc).interaction.aux "loss_structural" = none
         ∧ (forwardCore p sender receiver lf ls false baselinesInit si labels none
             acc).optimizedLoss
           = (forwardCore p0 sender receiver lf ls false baselinesInit si labels none
               acc).optimizedLoss)
     ∧ (0 < p.weightStructuralLoss →
         (forwardCore p sender receiver lf ls false baselinesInit si labels none
             acc).senderCalls
           = [(stage1 sender receiver lf false si labels none).sampledCall,
              SenderCall.teacherForced
                (stage1 sender receiver lf false si labels none).imagesTarget
                si.captions si.sequenceLengths true false]
         ∧ auxGet (forwardCore p sender receiver lf ls false baselinesInit si labels none
             acc).interaction.aux "loss_structural"
           = some (AuxVal.t1 ⟨[(ls si.captions
               (sender.teacherForced
                 (stage1 sender receiver lf false si labels none).imagesTarget
                 si.captions si.sequenceLengths true false)).1], false⟩)
         ∧ (forwardCore p sender receiver lf ls false baselinesInit si labels none
             acc).optimizedLoss
           = (forwardCore p0 sender receiver lf ls false baselinesInit si labels none
               acc).optimizedLoss
             + p.weightStructuralLoss * (ls si.captions
                 (sender.teacherForced
                   (stage1 sender receiver lf false si labels none).imagesTarget
                   si.captions si.sequenceLengths true false)).1)) := by
  exact structural_path_gating ⟨1, 1, 1, 1⟩
    ⟨fun _ _ _ => ([[0]], ⟨[[1/2]], true⟩, ⟨[[1/3]], true⟩),
     fun _ _ _ _ _ => ⟨[[1]], true⟩⟩
    ⟨fun _ _ _ => (⟨[9], true⟩, ⟨[1/4], true⟩, ⟨[1/5], true⟩)⟩
    (fun _ _ _ _ _ _ => (⟨[1], true⟩, [("acc", AuxVal.t1 ⟨[1], false⟩)]))
    (fun _ _ => (2, []))
    false baselinesInit ⟨[[10]], [0], [0], [0], [[1]], [1]⟩ ⟨[0], false⟩ none
    ⟨[1], false⟩ rfl rfl

/-- C9 counterexample: `forward` passes `sender_input`, `labels` and
`receiver_input` to the logging strategy as-is, without `.detach()`
(src/game.py lines 227-235): on a concrete run whose `labels` tensor carries a
gradient connection, the interaction's `labels` field still carries it, so not
every tensor handed to the logging strategy is detached. -/
theorem interaction_inputs_not_detached :
    (forward ⟨1, 1, 1, 1⟩
        ⟨fun _ _ _ => ([[0]], ⟨[[1/2]], true⟩, ⟨[[1/3]], true⟩),
         fun _ _ _ _ _ => ⟨[[1]], true⟩⟩
        ⟨fun _ _ _ => (⟨[9], true⟩, ⟨[1/4], true⟩, ⟨[1/5], true⟩)⟩
        (fun _ _ _ _ _ _ => (⟨[1], true⟩, [("acc", AuxVal.t1 ⟨[1], false⟩)]))
        (fun _ _ => (2, []))
        false baselinesInit
        ⟨[[10]], [0], [0], [0], [[1]], [1]⟩ ⟨[0], true⟩ none).map
      (fun r => r.interaction.labels.grad) = some true := by
  rfl

/-- C9 (amended): the Interaction is built from the detached `message` and
`receiver_output` and the detached aux entries added by `forward`
(`sender_entropy`, `receiver_entropy`, and the gradient-free `length`), while
`sender_input`, `labels`, `receiver_input` and `message_lengths` are passed
through unchanged, not detached (src/game.py lines 220-235). -/
theorem interaction_detach_fields (p : Params) (sender : Sender) (receiver : Receiver)
    (lossFunctional : LossFunctional) (lossStructural : LossStructural)
    (training : Bool) (baselines : String → MeanBaseline)
    (senderInput : SenderInput) (labels : Tensor) (receiverInput : Option Tensor)
    (acc : Tensor)
    (hacc : accLookup sender receiver lossFunctional training senderInput labels
      receiverInput = some acc) :
    forward p sender receiver lossFunctional lossStructural training baselines
        senderInput labels receiverInput
      = some (forwardCore p sender receiver lossFunctional lossStructural training
          baselines senderInput labels receiverInput acc)
    ∧ (forwardCore p sender receiver lossFunctional lossStructural training baselines
        senderInput labels receiverInput acc).interaction.receiverOutput
      = (stage1 sender receiver lossFunctional training senderInput labels
          receiverInput).receiver_output.detach
    ∧ (forwardCore p sender receiver lossFunctional lossStructural training baselines
        senderInput labels receiverInput acc).interaction.receiverOutput.grad = false
    ∧ (forwardCore p sender receiver lossFunctional lossStructural training baselines
        senderInput labels receiverInput acc).interaction.message
      = (stage1 sender receiver lossFunctional training senderInput labels
          receiverInput).messages
    ∧ (forwardCore p sender receiver lossFunctional lossStructural training baselines
        senderInput labels receiverInput acc).interaction.senderInput = senderInput
    ∧ (forwardCore p sender receiver lossFunctional lossStructural training baselines
        senderInput labels receiverInput acc).interaction.labels = labels
    ∧ (forwardCore p sender receiver lossFunctional lossStructural training baselines
        senderInput labels receiverInput acc).interaction.receiverInput = receiverInput
    ∧ (forwardCore p sender receiver lossFunctional lossStructural training baselines
        senderInput labels receiverInput acc).interaction.messageLength
      = (stage1 sender receiver lossFunctional training senderInput labels
          receiverInput).message_lengths
    ∧ auxGet (forwardCore p sender receiver lossFunctional lossStructural training
        baselines senderInput labels receiverInput acc).interaction.aux "sender_entropy"
      = some (AuxVal.t2 (stage1 sender receiver lossFunctional training senderInput
          labels receiverInput).entropy_s.detach)
    ∧ auxGet (forwardCore p sender receiver lossFunctional lossStructural training
        baselines senderInput labels receiverInput acc).interaction.aux "receiver_entropy"
      = some (AuxVal.t1 (stage1 sender receiver lossFunctional training senderInput
          labels receiverInput).entropy_r.detach)
    ∧ auxGet (forwardCore p sender receiver lossFunctional lossStructural training
        baselines senderInput labels receiverInput acc).interaction.aux "length"
      = some (AuxVal.t1 (lengthsFloat (stage1 sender receiver lossFunctional training
          senderInput labels receiverInput).message_lengths)) := by
  refine ⟨forward_eq_core p sender receiver lossFunctional lossStructural training
    baselines senderInput labels receiverInput acc hacc,
    rfl, rfl, rfl, rfl, rfl, rfl, rfl, ?_, ?_, ?_⟩
  · simp only [forwardCore]
    rw [auxGet_auxSet_other _ _ _ _ (by decide), auxGet_auxSet_other _ _ _ _ (by decide)]
    exact auxGet_auxSet_same _ _ _
  · simp only [forwardCore]
    rw [auxGet_auxSet_other _ _ _ _ (by decide)]
    exact auxGet_auxSet_same _ _ _
  · simp only [forwardCore]
    exact auxGet_auxSet_same _ _ _

/-- C9 (amended) witness: the detach discipline of the interaction record on
the concrete batch-size-1 game. -/
theorem interaction_detach_fields_witness :
    (let p : Params := ⟨1, 1, 1, 1⟩
     let sender : Sender :=
       ⟨fun _ _ _ => ([[0]], ⟨[[1/2]], true⟩, ⟨[[1/3]], true⟩),
        fun _ _ _ _ _ => ⟨[[1]], true⟩⟩
     let receiver : Receiver := ⟨fun _ _ _ => (⟨[9], true⟩, ⟨[1/4], true⟩, ⟨[1/5], true⟩)⟩
     let lf : LossFunctional :=
       fun _ _ _ _ _ _ => (⟨[1], true⟩, [("acc", AuxVal.t1 ⟨[1], false⟩)])
     let ls : LossStructural := fun _ _ => (2, [])
     let si : SenderInput := ⟨[[10]], [0], [0], [0], [[1]], [1]⟩
     let labels : Tensor := ⟨[0], true⟩
     let acc : Tensor := ⟨[1], false⟩
     let core := forwardCore p sender receiver lf ls false baselinesInit si labels none acc
     let st := stage1 sender receiver lf false si labels none
     forward p sender receiver lf ls false baselinesInit si labels none = some core
     ∧ core.interaction.receiverOutput = st.receiver_output.detach
     ∧ core.interaction.receiverOutput.grad = false
     ∧ core.interaction.message = st.messages
     ∧ core.interaction.senderInput = si
     ∧ core.interaction.labels = labels
     ∧ core.interaction.receiverInput = none
     ∧ core.interaction.messageLength = st.message_lengths
     ∧ auxGet core.interaction.aux "sender_entropy" = some (AuxVal.t2 st.entropy_s.detach)
     ∧ auxGet core.interaction.aux "receiver_entropy" = some (AuxVal.t1 st.entropy_r.detach)
     ∧ auxGet core.interaction.aux "length"
        = some (AuxVal.t1 (lengthsFloat st.message_lengths))) := by
  exact interaction_detach_fields ⟨1, 1, 1, 1⟩
    ⟨fun _ _ _ => ([[0]], ⟨[[1/2]], true⟩, ⟨[[1/3]], true⟩),
     fun _ _ _ _ _ => ⟨[[1]], true⟩⟩
    ⟨fun _ _ _ => (⟨[9], true⟩, ⟨[1/4], true⟩, ⟨[1/5], true⟩)⟩
    (fun _ _ _ _ _ _ => (⟨[1], true⟩, [("acc", AuxVal.t1 ⟨[1], false⟩)]))
    (fun _ _ => (2, []))
    false baselinesInit ⟨[[10]], [0], [0], [0], [[1]], [1]⟩ ⟨[0], true⟩ none
    ⟨[1], false⟩ rfl

/-- C10: the sampled (non-teacher-forced) Sender invocation is identical in
training and evaluation mode: for every mode, the first Sender call of a
`forward` step is issued with `use_teacher_forcing = False` and
`decode_sampling = True` on the selected target images, and the sampled phase
as a whole does not depend on the mode (src/game.py lines 139-148). -/
theorem sampled_call_mode_invariant (p : Params) (sender : Sender) (receiver : Receiver)
    (lossFunctional : LossFunctional) (lossStructural : LossStructural)
    (training : Bool) (baselines : String → MeanBaseline)
    (senderInput : SenderInput) (labels : Tensor) (receiverInput : Option Tensor)
    (acc : Tensor)
    (hacc : accLookup sender receiver lossFunctional training senderInput labels
      receiverInput = some acc) :
    stage1 sender receiver lossFunctional training senderInput labels receiverInput
      = stage1 sender receiver lossFunctional false senderInput labels receiverInput
    ∧ forward p sender receiver lossFunctional lossStructural training baselines
        senderInput labels receiverInput
      = some (forwardCore p sender receiver lossFunctional lossStructural training
          baselines senderInput labels receiverInput acc)
    ∧ (forwardCore p sender receiver lossFunctional lossStructural training baselines
        senderInput labels receiverInput acc).senderCalls.head?
      = some (SenderCall.sampled
          (imagesTargetOf senderInput.images senderInput.targetLabel) false true) := by
  refine ⟨stage1_training_const sender receiver lossFunctional training senderInput labels
      receiverInput,
    forward_eq_core p sender receiver lossFunctional lossStructural training baselines
      senderInput labels receiverInput acc hacc, ?_⟩
  by_cases h : 0 < p.weightStructuralLoss
  · cases training <;> simp only [forwardCore, if_pos h] <;> rfl
  · cases training <;> simp only [forwardCore, if_neg h] <;> rfl

/-- C10 witness: the mode-invariance of the sampled Sender call on the concrete
batch-size-1 game in training mode. -/
theorem sampled_call_mode_invariant_witness :
    (let p : Params := ⟨1, 1, 1, 1⟩
     let sender : Sender :=
       ⟨fun _ _ _ => ([[0]], ⟨[[1/2]], true⟩, ⟨[[1/3]], true⟩),
        fun _ _ _ _ _ => ⟨[[1]], true⟩⟩
     let receiver : Receiver := ⟨fun _ _ _ => (⟨[9], true⟩, ⟨[1/4], true⟩, ⟨[1/5], true⟩)⟩
     let lf : LossFunctional :=
       fun _ _ _ _ _ _ => (⟨[1], true⟩, [("acc", AuxVal.t1 ⟨[1], false⟩)])
     let ls : LossStructural := fun _ _ => (2, [])
     let si : SenderInput := ⟨[[10]], [0], [0], [0], [[1]], [1]⟩
     let labels : Tensor := ⟨[0], false⟩
     let acc : Tensor := ⟨[1], false⟩
     stage1 sender receiver lf true si labels none = stage1 sender receiver lf false si labels none
     ∧ forward p sender receiver lf ls true baselinesInit si labels none
       = some (forwardCore p sender receiver lf ls true baselinesInit si labels none acc)
     ∧ (forwardCore p sender receiver lf ls true baselinesInit si labels none
         acc).senderCalls.head?
       = some (SenderCall.sampled (imagesTargetOf si.images si.targetLabel) false true)) := by
  exact sampled_call_mode_invariant ⟨1, 1, 1, 1⟩
    ⟨fun _ _ _ => ([[0]], ⟨[[1/2]], true⟩, ⟨[[1/3]], true⟩),
     fun _ _ _ _ _ => ⟨[[1]], true⟩⟩
    ⟨fun _ _ _ => (⟨[9], true⟩, ⟨[1/4], true⟩, ⟨[1/5], true⟩)⟩
    (fun _ _ _ _ _ _ => (⟨[1], true⟩, [("acc", AuxVal.t1 ⟨[1], false⟩)]))
    (fun _ _ => (2, []))
    true baselinesInit ⟨[[10]], [0], [0], [0], [[1]], [1]⟩ ⟨[0], false⟩ none
    ⟨[1], false⟩ rfl
